import Mathlib

/-!
Verification of the schematic connection graph of the climact-alpha
repository: handles, edges, pairing and freeing (src/ui/graph/handle.py,
src/ui/graph/edge.py), vertex resizing (src/ui/graph/node.py), tab
management (src/tab-template.py) and the event bus (src/core/events.py).
The Python classes are shallowly embedded as Lean structures and
executable functions; geometry uses exact rationals.
-/

namespace Climact

/-! ### Handle roles (handle.py, `class HandleRole`) -/

/-- Embedding of the `HandleRole` enum from handle.py: a handle is an input or an output. -/
inductive HandleRole where
  | INP
  | OUT
deriving DecidableEq, Repr

/-- Connection-relevant state of a `HandleItem` (handle.py).
`role` and `owner` (the id of the owning vertex) are fixed at construction;
`pending` is the size of the `_connections` dict; `connected`, `connector`
(the id of the edge object) and `conjugate` (the id of the paired handle)
are the mutable pairing fields set in `__init__` lines 82-84. -/
structure Handle where
  role : HandleRole := .OUT
  owner : Nat := 0
  pending : Nat := 0
  connected : Bool := false
  connector : Option Nat := none
  conjugate : Option Nat := none
deriving DecidableEq, Repr

/-- Embedding of `HandleItem.is_connectable` (handle.py lines 300-306): true when already
connected, otherwise true exactly when `_connections` is empty. -/
def Handle.is_connectable (h : Handle) : Bool :=
  if h.connected then true else h.pending == 0

/-- Embedding of `HandleItem.pair(connector, conjugate)` (handle.py lines 281-286). -/
def Handle.pair (h : Handle) (connector : Nat) (conjugate : Nat) : Handle :=
  { h with connected := true, connector := some connector, conjugate := some conjugate }

/-- The last three assignments of `HandleItem.free` (handle.py lines 295-297):
return the pairing fields to the unconnected baseline. -/
def Handle.reset (h : Handle) : Handle :=
  { h with connected := false, connector := none, conjugate := none }

/-- A `VectorItem` edge record: weak references to origin and target handle
(edge.py `_connect` lines 97-98) plus the hidden flag toggled by
`self.connector.hide()` in `HandleItem.free`. -/
structure EdgeRec where
  origin : Nat
  target : Nat
  hidden : Bool := false
deriving DecidableEq, Repr

/-- The scene state the connection protocol acts on: handle objects addressed
by id, and the edge objects created so far (fresh ids are list positions). -/
structure GraphState where
  handles : Nat → Handle
  edges : List EdgeRec

/-- Replace the handle object with id `i`. -/
def GraphState.setHandle (s : GraphState) (i : Nat) (h : Handle) : GraphState :=
  { s with handles := fun k => if k = i then h else s.handles k }

/-- Effect of `self.connector.hide()`: mark the edge object with id `e` hidden. -/
def GraphState.hideEdge (s : GraphState) (e : Nat) : GraphState :=
  { s with edges :=
      match s.edges[e]? with
      | some r => s.edges.set e { r with hidden := true }
      | none => s.edges }

/-- Embedding of `HandleItem.free(mirror)` (handle.py lines 289-297), as general recursion
with fuel: when `mirror` holds and both `connector` and `conjugate` are set,
hide the connector edge and invoke `free(mirror := false)` on the conjugate,
then reset the handle's own pairing fields.  Besides the resulting state the
function returns the list of nested `free` invocations `(handle id, mirror)`
performed, and `none` when the fuel does not cover the recursion depth. -/
def freeFuel : Nat → GraphState → Nat → Bool → Option (GraphState × List (Nat × Bool))
  | 0, _, _, _ => none
  | fuel + 1, s, i, mirror =>
    let h := s.handles i
    if mirror && h.connector.isSome && h.conjugate.isSome then
      let conj := h.conjugate.getD 0
      let s1 := s.hideEdge (h.connector.getD 0)
      match freeFuel fuel s1 conj false with
      | none => none
      | some (s2, calls) =>
          some (s2.setHandle i ((s2.handles i).reset), (conj, false) :: calls)
    else
      some (s.setHandle i ((s.handles i).reset), [])

/-- Embedding of `HandleItem.free(mirror)`: the recursion depth is at most two (proved
below), so fuel 2 always suffices and the fallback branch is dead. -/
def free (s : GraphState) (i : Nat) (mirror : Bool) : GraphState :=
  match freeFuel 2 s i mirror with
  | some (s', _) => s'
  | none => s

/-- Derived closed form of the state after a mirrored free of handle `i`:
the connector edge is hidden, the conjugate handle is reset, then the handle
itself is reset (proved equal to `free` in the mirrored case below). -/
def freeMirrorState (s : GraphState) (i : Nat) : GraphState :=
  let e := (s.handles i).connector.getD 0
  let j := (s.handles i).conjugate.getD 0
  let s1 := (s.hideEdge e).setHandle j (((s.hideEdge e).handles j).reset)
  s1.setHandle i ((s1.handles i).reset)

/-- Embedding of `VectorItem._connect(origin, target)` (edge.py lines 95-111), restricted
to the connection state: the freshly constructed edge object referencing both
handles is recorded, then `origin.pair(self, target)` and
`target.pair(self, origin)` run in that order. -/
def connect (s : GraphState) (i j : Nat) : GraphState :=
  let eid := s.edges.length
  let s1 : GraphState := { s with edges := s.edges ++ [{ origin := i, target := j }] }
  let s2 := s1.setHandle i ((s1.handles i).pair eid j)
  s2.setHandle j ((s2.handles j).pair eid i)

/-- Number of edge records referencing both handle `i` and handle `j`
(in either orientation). -/
def edgesReferencing (es : List EdgeRec) (i j : Nat) : Nat :=
  (es.filter (fun e => (e.origin == i && e.target == j) || (e.origin == j && e.target == i))).length

/-- The user-driven operations of the connection protocol: spawning a handle
on an anchor rail, pairing two handles through a new edge, freeing a handle. -/
inductive GraphOp where
  | addHandle (i : Nat) (role : HandleRole) (owner : Nat)
  | connect (i j : Nat)
  | free (i : Nat) (mirror : Bool)

/-- Apply one operation. -/
def GraphState.exec (s : GraphState) : GraphOp → GraphState
  | .addHandle i role owner => s.setHandle i { role := role, owner := owner }
  | .connect i j => Climact.connect s i j
  | .free i mirror => Climact.free s i mirror

/-- Apply a sequence of operations. -/
def GraphState.execList (s : GraphState) (ops : List GraphOp) : GraphState :=
  ops.foldl GraphState.exec s

/-- The empty scene: every handle id holds an unconnected baseline handle,
no edges. -/
def initState : GraphState := { handles := fun _ => {}, edges := [] }

/-- Consistency of a handle's pairing fields: either `connected` with both
references set, or unconnected with both absent. -/
def handleConsistent (h : Handle) : Prop :=
  (h.connected = true ∧ h.connector.isSome = true ∧ h.conjugate.isSome = true) ∨
  (h.connected = false ∧ h.connector = none ∧ h.conjugate = none)

instance (h : Handle) : Decidable (handleConsistent h) := by
  unfold handleConsistent; infer_instance

/-- A concrete scene: handle 0 (an output of vertex 0) and handle 1 (an
input of vertex 1), freshly spawned and not yet paired. -/
def demoFresh : GraphState :=
  initState.execList [.addHandle 0 .OUT 0, .addHandle 1 .INP 1]

/-- The concrete scene after pairing handles 0 and 1 through edge 0. -/
def demoPaired : GraphState :=
  demoFresh.execList [.connect 0 1]

/-! ### Path routing (edge.py, `VectorItem.construct_path` / `update_path`) -/

/-- A 2D point with exact rational coordinates (`QPointF`). -/
structure Pt where
  x : ℚ
  y : ℚ
deriving DecidableEq, Repr

/-- A cubic bezier path as produced by `_bezier`: `moveTo(p0)` followed by
`cubicTo(c1, c2, p3)` (edge.py lines 203-216). -/
structure BezierPath where
  p0 : Pt
  c1 : Pt
  c2 : Pt
  p3 : Pt
deriving DecidableEq, Repr

/-- Embedding of `VectorItem.construct_path(initial, final)` (edge.py lines 195-223);
`slackProp` is `self.property("slack")` (default `EdgeOpts["slack"] = 0.40`).
The slack actually used is the property when `initial.x() < final.x()` and
`-10 * property` otherwise; the control points follow `_bezier`. -/
def construct_path (slackProp : ℚ) (initial final : Pt) : BezierPath :=
  let bez := fun (s : ℚ) =>
    let ctrl_one_x := initial.x + (final.x - initial.x) * s
    let ctrl_one_y := initial.y + (final.y - initial.y) * (1/4)
    let ctrl_two_x := initial.x + (final.x - initial.x) * (1 - s)
    let ctrl_two_y := final.y - (final.y - initial.y) * (1/4)
    { p0 := initial, c1 := ⟨ctrl_one_x, ctrl_one_y⟩,
      c2 := ⟨ctrl_two_x, ctrl_two_y⟩, p3 := final : BezierPath }
  let slack := if initial.x < final.x then slackProp else -10 * slackProp
  bez slack

/-- The cached geometry of a `VectorItem`: the slack property and the cached
`route` property (empty `QPainterPath` before the first update). -/
structure EdgeGeom where
  slack : ℚ
  route : Option BezierPath := none
deriving DecidableEq, Repr

/-- Embedding of `VectorItem.update_path(origin, target)` (edge.py lines 226-246) with
point arguments: recompute `construct_path` from the endpoints and cache it
as the `route` property. -/
def update_path (st : EdgeGeom) (origin target : Pt) : EdgeGeom :=
  { st with route := some (construct_path st.slack origin target) }

/-! ### Vertex resizing (node.py, `VertexItem.on_resize_handle_moved`) -/

/-- Python `max(xs)` over the nonempty list `y :: ys`. -/
def pyMax (y : ℚ) (ys : List ℚ) : ℚ := ys.foldl max y

/-- The frame-bottom computation of `VertexItem.on_resize_handle_moved`
(node.py lines 311-326): `floor = max(handle y-offsets or [limit])`, then
`frame.setBottom(max(resize_handle.y(), max(floor, limit) + 6))`. -/
def on_resize_handle_moved (handleYs : List ℚ) (limit : ℚ) (dragY : ℚ) : ℚ :=
  let floor :=
    match handleYs with
    | [] => limit
    | y :: ys => pyMax y ys
  max dragY (max floor limit + 6)

/-- The vertex's floor limit, `self.attr["limit"] = VERTEX_OPTS["frame"].bottom()`
with `frame = QRectF(-36, -40, 72, 68)`: bottom = -40 + 68 = 28. -/
def defaultLimit : ℚ := -40 + 68

/-- Modelled from the spec: the clamp formula of section 4.3,
`max(drag_position, max(existing_handle_y_offsets, floor_limit) + margin)`
with margin 6, the inner max ranging over all offsets and the floor limit. -/
def specFrameBottom (handleYs : List ℚ) (limit : ℚ) (dragY : ℚ) : ℚ :=
  max dragY (handleYs.foldl max limit + 6)

/-! ### Tab management (tab-template.py, `TabView`) -/

/-- Value of `TAB_VIEW_OPTS["max-tabs"]`. -/
def maxTabs : Nat := 8

/-- The observable tab state: the ordered list of tab contents (abstracted
to identifiers). -/
structure TabState where
  tabs : List Nat
deriving DecidableEq, Repr

/-- Embedding of `TabView.create_tab` (tab-template.py lines 75-110): beep and bail out
when the count has reached `max-tabs`, otherwise append one tab.  The second
component records whether `QApplication.beep()` was emitted. -/
def create_tab (st : TabState) (tab : Nat) : TabState × Bool :=
  if st.tabs.length ≥ maxTabs then (st, true)
  else ({ tabs := st.tabs ++ [tab] }, false)

/-- Embedding of `TabView._on_tab_close(index)` (tab-template.py lines 146-157): remove
the tab at `index` when more than one tab exists, otherwise beep.  `removeTab`
with an out-of-range index is a no-op, like `List.eraseIdx`. -/
def on_tab_close (st : TabState) (index : Nat) : TabState × Bool :=
  if st.tabs.length > 1 then ({ tabs := st.tabs.eraseIdx index }, false)
  else (st, true)

/-! ### Event bus singleton (core/events.py, `EventBus`) -/

/-- An `EventBus` object: its identity and how often the real initialization
body (`super().__init__(); self._initialized = True`) has run. -/
structure BusObj where
  objId : Nat
  initialized : Bool := false
  initCount : Nat := 0
deriving DecidableEq, Repr

/-- The process state relevant to the singleton: the class attribute
`EventBus._instance` and a fresh-object counter. -/
structure PyEnv where
  inst : Option BusObj := none
  nextId : Nat := 0
deriving DecidableEq, Repr

/-- Embedding of `EventBus.__new__` (events.py lines 25-28): allocate and store a fresh
object only when `_instance` is `None`; always return `_instance`. -/
def busNew (env : PyEnv) : PyEnv × Nat :=
  match env.inst with
  | some b => (env, b.objId)
  | none =>
    let b : BusObj := { objId := env.nextId }
    ({ inst := some b, nextId := env.nextId + 1 }, b.objId)

/-- Embedding of `EventBus.__init__` (events.py lines 31-36) applied to the stored
instance: return early when `_initialized` is already set, otherwise run the
initialization body once. -/
def busInit (env : PyEnv) : PyEnv :=
  match env.inst with
  | none => env
  | some b =>
    if b.initialized then env
    else { env with inst := some { b with initialized := true, initCount := b.initCount + 1 } }

/-- The Python expression `EventBus()`: `__new__` followed by `__init__` on
the returned object. -/
def busConstruct (env : PyEnv) : PyEnv × Nat :=
  let p := busNew env
  (busInit p.1, p.2)

/-- Embedding of `EventBus.instance()` (events.py lines 38-45): construct on first access,
then return the stored instance. -/
def busInstance (env : PyEnv) : PyEnv × Nat :=
  match env.inst with
  | some b => (env, b.objId)
  | none => busConstruct env

/-- The two ways client code reaches the bus. -/
inductive BusOp where
  | construct
  | instanceCall

/-- Run one access. -/
def busExec (env : PyEnv) : BusOp → PyEnv × Nat
  | .construct => busConstruct env
  | .instanceCall => busInstance env

/-- Run a sequence of accesses, collecting the returned object ids. -/
def busRun (env : PyEnv) (ops : List BusOp) : PyEnv × List Nat :=
  ops.foldl (fun acc op =>
    let p := busExec acc.1 op
    (p.1, acc.2 ++ [p.2])) (env, [])

/-- The process state after the singleton exists: object 0, initialized
exactly once. -/
def settledEnv : PyEnv := { inst := some { objId := 0, initialized := true, initCount := 1 }, nextId := 1 }

/-- The process state before any access: `EventBus._instance = None`. -/
def initialEnv : PyEnv := {}

/-! ### Handle creation from a string role (node.py, `VertexItem.create_handle`) -/

/-- ASCII model of Python `str.upper()` (`Char.toUpper` maps a-z to A-Z and
leaves other characters unchanged). -/
def pyUpper (s : String) : String := ⟨s.data.map Char.toUpper⟩

/-- The `role` argument of `VertexItem.create_handle`: a `HandleRole` member
or a plain string. -/
inductive RoleArg where
  | enumRole (r : HandleRole)
  | strRole (s : String)

/-- The role coercion at the top of `create_handle` (node.py lines 405-408):
a string upper-casing to exactly `"INP"` becomes `HandleRole.INP`, every
other string becomes `HandleRole.OUT`. -/
def resolveRole : RoleArg → HandleRole
  | .enumRole r => r
  | .strRole s => if pyUpper s = "INP" then .INP else .OUT

/-- The `inp`/`out` dictionaries of the vertex database
(`self.database.inp` / `self.database.out`), as ordered id lists. -/
structure VertexDb where
  inp : List Nat := []
  out : List Nat := []
deriving DecidableEq, Repr

/-- Embedding of `VertexItem.create_handle(role, cpos)` (node.py lines 396-425) restricted
to role resolution and database routing: resolve the role, create the handle
with that role, and file it under `inp` or `out`.  Returns the updated
database and the created handle's role. -/
def create_handle (db : VertexDb) (arg : RoleArg) (hid : Nat) : VertexDb × HandleRole :=
  let role := resolveRole arg
  match role with
  | .INP => ({ db with inp := db.inp ++ [hid] }, role)
  | .OUT => ({ db with out := db.out ++ [hid] }, role)

/-! ### Helper lemmas -/

/-- Folding `max` commutes with an outer `max`. -/
theorem foldl_max_comm (ys : List ℚ) : ∀ a b : ℚ,
    max (ys.foldl max a) b = ys.foldl max (max b a) := by
  induction ys with
  | nil => intro a b; exact max_comm a b
  | cons c ys ih =>
    intro a b
    simp only [List.foldl_cons]
    rw [ih, max_assoc]

@[simp] theorem pair_connected (h : Handle) (c j : Nat) : (h.pair c j).connected = true := rfl

@[simp] theorem pair_connector (h : Handle) (c j : Nat) : (h.pair c j).connector = some c := rfl

@[simp] theorem pair_conjugate (h : Handle) (c j : Nat) : (h.pair c j).conjugate = some j := rfl

@[simp] theorem reset_connected (h : Handle) : h.reset.connected = false := rfl

@[simp] theorem reset_connector (h : Handle) : h.reset.connector = none := rfl

@[simp] theorem reset_conjugate (h : Handle) : h.reset.conjugate = none := rfl

@[simp] theorem setHandle_handles (s : GraphState) (i : Nat) (h : Handle) (k : Nat) :
    (s.setHandle i h).handles k = if k = i then h else s.handles k := rfl

@[simp] theorem setHandle_edges (s : GraphState) (i : Nat) (h : Handle) :
    (s.setHandle i h).edges = s.edges := rfl

@[simp] theorem hideEdge_handles (s : GraphState) (e : Nat) :
    (s.hideEdge e).handles = s.handles := rfl

/-- The `mirror = false` invocation of `free` needs one stack frame and
resets the handle without any nested call. -/
theorem freeFuel_one_false (s : GraphState) (j : Nat) :
    freeFuel 1 s j false = some (s.setHandle j ((s.handles j).reset), []) := rfl

/-- Unfolding `freeFuel` at fuel 2: the nested `mirror = false` call always
succeeds within the remaining fuel. -/
theorem freeFuel_two (s : GraphState) (i : Nat) (mirror : Bool) :
    freeFuel 2 s i mirror =
      if mirror && (s.handles i).connector.isSome && (s.handles i).conjugate.isSome then
        some (freeMirrorState s i, [((s.handles i).conjugate.getD 0, false)])
      else
        some (s.setHandle i ((s.handles i).reset), []) := rfl

/-- Closed form of `free`. -/
theorem free_eq (s : GraphState) (i : Nat) (mirror : Bool) :
    free s i mirror =
      if mirror && (s.handles i).connector.isSome && (s.handles i).conjugate.isSome then
        freeMirrorState s i
      else s.setHandle i ((s.handles i).reset) := by
  unfold free
  rw [freeFuel_two]
  by_cases hc : (mirror && (s.handles i).connector.isSome && (s.handles i).conjugate.isSome) = true
  · rw [if_pos hc, if_pos hc]
  · rw [if_neg hc, if_neg hc]

/-- Every handle object left behind by `free` is either untouched or reset. -/
theorem free_handles_cases (s : GraphState) (i : Nat) (mirror : Bool) (m : Nat) :
    (free s i mirror).handles m = s.handles m ∨
    ∃ h0 : Handle, (free s i mirror).handles m = h0.reset := by
  rw [free_eq]
  by_cases hc : (mirror && (s.handles i).connector.isSome && (s.handles i).conjugate.isSome) = true
  · rw [if_pos hc]
    simp only [freeMirrorState, setHandle_handles, hideEdge_handles]
    by_cases h1 : m = i
    · rw [if_pos h1]; exact Or.inr ⟨_, rfl⟩
    · rw [if_neg h1]
      by_cases h2 : m = (s.handles i).conjugate.getD 0
      · rw [if_pos h2]; exact Or.inr ⟨_, rfl⟩
      · rw [if_neg h2]; exact Or.inl rfl
  · rw [if_neg hc]
    simp only [setHandle_handles]
    by_cases h1 : m = i
    · rw [if_pos h1]; exact Or.inr ⟨_, rfl⟩
    · rw [if_neg h1]; exact Or.inl rfl

theorem handleConsistent_pair (h : Handle) (a b : Nat) : handleConsistent (h.pair a b) :=
  Or.inl ⟨rfl, rfl, rfl⟩

theorem handleConsistent_reset (h : Handle) : handleConsistent h.reset :=
  Or.inr ⟨rfl, rfl, rfl⟩

/-- Both access paths on the settled singleton state return the stored
instance and leave the state unchanged. -/
theorem busExec_settled (op : BusOp) : busExec settledEnv op = (settledEnv, 0) := by
  cases op <;> rfl

/-- The first access, through either path, creates and initializes the
singleton. -/
theorem busExec_first (op : BusOp) : busExec initialEnv op = (settledEnv, 0) := by
  cases op <;> rfl

/-- Folding accesses over the settled state only appends zeros. -/
theorem busRun_settled (ops : List BusOp) : ∀ acc : List Nat,
    ops.foldl (fun acc op =>
      let p := busExec acc.1 op
      (p.1, acc.2 ++ [p.2])) (settledEnv, acc)
      = (settledEnv, acc ++ List.replicate ops.length 0) := by
  induction ops with
  | nil => intro acc; simp
  | cons op ops ih =>
    intro acc
    simp only [List.foldl_cons, busExec_settled]
    rw [ih]
    simp [List.replicate_succ, List.append_assoc]

/-! ### Theorems for the claims -/

/-- C6: for any endpoint pair, the bezier path starts at the origin, ends at
the target, places both control points at a 25% vertical offset from their
endpoint toward the other, and uses the configured slack factor horizontally
when origin.x < target.x, and that factor multiplied by -10 when
origin.x >= target.x. -/
theorem construct_path_control_points (slackProp : ℚ) (o t : Pt) :
    (construct_path slackProp o t).p0 = o ∧
    (construct_path slackProp o t).p3 = t ∧
    (construct_path slackProp o t).c1 =
      ⟨o.x + (t.x - o.x) * (if t.x ≤ o.x then -10 * slackProp else slackProp),
       o.y + (t.y - o.y) * (1/4)⟩ ∧
    (construct_path slackProp o t).c2 =
      ⟨o.x + (t.x - o.x) * (1 - (if t.x ≤ o.x then -10 * slackProp else slackProp)),
       t.y - (t.y - o.y) * (1/4)⟩ := by
  have hiff : (if o.x < t.x then slackProp else -10 * slackProp) =
      (if t.x ≤ o.x then -10 * slackProp else slackProp) := by
    rcases lt_or_ge o.x t.x with h | h
    · rw [if_pos h, if_neg (not_le.mpr h)]
    · rw [if_neg (not_lt.mpr h), if_pos h]
  refine ⟨rfl, rfl, ?_, ?_⟩ <;>
    simp only [construct_path, hiff]

/-- C7: recomputing the path from the same endpoints and the same slack is
idempotent (a second `update_path` leaves the cached route unchanged) and
deterministic (the cached route depends only on the slack and the endpoints,
not on the previously cached geometry). -/
theorem update_path_idempotent (sl : ℚ) (r1 r2 : Option BezierPath) (o t : Pt) :
    (update_path (update_path ⟨sl, r1⟩ o t) o t).route = (update_path ⟨sl, r1⟩ o t).route ∧
    (update_path ⟨sl, r1⟩ o t).route = (update_path ⟨sl, r2⟩ o t).route :=
  ⟨rfl, rfl⟩

/-- C5 counterexample: with the code's floor limit (`VERTEX_OPTS` frame
bottom, 28) and a single handle at y-offset 10, dragging the resize handle
to -20 yields frame bottom 34 = max(10, 28) + 6, not 10 + 6 = 16 as the
claim's example asserts. -/
theorem resize_clamp_counterexample :
    on_resize_handle_moved [10] defaultLimit (-20) = 34 ∧
    on_resize_handle_moved [10] defaultLimit (-20) ≠ 10 + 6 := by
  constructor <;>
    norm_num [on_resize_handle_moved, pyMax, defaultLimit, max_def]

/-- C5 amended: the resulting frame bottom equals
`max(drag, max(handle y-offsets, floor_limit) + 6)` for every configuration,
so the vertex can never shrink above its lowest handle; in the example
scenario (handle at y=10, drag to -20, floor limit 28) the bottom clamps to
`max(10, floor_limit) + 6 = 34` — the floor limit, not the handle offset,
dominates there. -/
theorem resize_clamp_formula (handleYs : List ℚ) (limit dragY : ℚ) :
    on_resize_handle_moved handleYs limit dragY = specFrameBottom handleYs limit dragY ∧
    on_resize_handle_moved [10] defaultLimit (-20) = max 10 defaultLimit + 6 := by
  refine ⟨?_, by norm_num [on_resize_handle_moved, pyMax, defaultLimit, max_def]⟩
  cases handleYs with
  | nil => simp [on_resize_handle_moved, specFrameBottom]
  | cons y ys =>
    simp only [on_resize_handle_moved, specFrameBottom, pyMax, List.foldl_cons]
    rw [foldl_max_comm]

/-- C8: creating a tab beeps and changes nothing exactly when the tab count
has reached `max-tabs = 8`, and otherwise appends exactly one tab; closing a
tab beeps and changes nothing exactly when at most one tab remains, and
otherwise removes exactly the tab at the requested index. -/
theorem tab_ops_guarded (st : TabState) (tab index : Nat) :
    ((create_tab st tab).2 = decide (maxTabs ≤ st.tabs.length)) ∧
    ((create_tab st tab).1.tabs =
      if maxTabs ≤ st.tabs.length then st.tabs else st.tabs ++ [tab]) ∧
    ((on_tab_close st index).2 = decide (st.tabs.length ≤ 1)) ∧
    ((on_tab_close st index).1.tabs =
      if st.tabs.length ≤ 1 then st.tabs
      else st.tabs.take index ++ st.tabs.drop (index + 1)) := by
  refine ⟨?_, ?_, ?_, ?_⟩
  · by_cases h : maxTabs ≤ st.tabs.length <;>
      simp [create_tab, h, ge_iff_le]
  · by_cases h : maxTabs ≤ st.tabs.length <;>
      simp [create_tab, h, ge_iff_le]
  · by_cases h : st.tabs.length ≤ 1
    · simp [on_tab_close, Nat.not_lt.mpr h, h]
    · simp [on_tab_close, Nat.lt_of_not_le h, h]
  · by_cases h : st.tabs.length ≤ 1
    · simp [on_tab_close, Nat.not_lt.mpr h, h]
    · simp [on_tab_close, Nat.lt_of_not_le h, h,
        List.eraseIdx_eq_take_drop_succ]

/-- C10: a string role argument of `create_handle` yields an INP handle
exactly when it upper-cases to `"INP"`; every other string — including
invalid role names like `"xyz"` — silently yields an OUT handle, with no
error path. -/
theorem create_handle_string_role (db : VertexDb) (hid : Nat) (s : String) :
    ((create_handle db (.strRole s) hid).2 = .INP ↔ pyUpper s = "INP") ∧
    (create_handle db (.strRole "xyz") hid).2 = .OUT := by
  have hxyz : ¬ (pyUpper "xyz" = "INP") := by decide
  refine ⟨?_, by simp [create_handle, resolveRole, hxyz]⟩
  by_cases h : pyUpper s = "INP"
  · simp [create_handle, resolveRole, h]
  · simp [create_handle, resolveRole, h]

/-- C1: constructing an edge between two compatible handles (opposite roles,
different owning vertices, both connectable) leaves both handles
`connected = true` with reciprocal back-references — both `connector` fields
hold the new edge, each `conjugate` holds the other handle — and exactly one
edge references both handles. -/
theorem pair_establishes_connection (s : GraphState) (i j : Nat)
    (hrole : (s.handles i).role ≠ (s.handles j).role)
    (howner : (s.handles i).owner ≠ (s.handles j).owner)
    (hci : (s.handles i).is_connectable = true)
    (hcj : (s.handles j).is_connectable = true)
    (hpre : edgesReferencing s.edges i j = 0) :
    ((connect s i j).handles i).connected = true ∧
    ((connect s i j).handles j).connected = true ∧
    ((connect s i j).handles i).connector = some s.edges.length ∧
    ((connect s i j).handles j).connector = some s.edges.length ∧
    ((connect s i j).handles i).conjugate = some j ∧
    ((connect s i j).handles j).conjugate = some i ∧
    edgesReferencing (connect s i j).edges i j = 1 := by
  have hij : i ≠ j := fun h => howner (by rw [h])
  have hhi : (connect s i j).handles i = (s.handles i).pair s.edges.length j := by
    simp [connect, hij]
  have hhj : (connect s i j).handles j = (s.handles j).pair s.edges.length i := by
    simp [connect, Ne.symm hij]
  have hedges : (connect s i j).edges = s.edges ++ [{ origin := i, target := j }] := rfl
  have hcount : edgesReferencing (connect s i j).edges i j = 1 := by
    rw [hedges]
    unfold edgesReferencing at hpre ⊢
    rw [List.filter_append, List.length_append, hpre]
    simp [List.filter]
  exact ⟨by rw [hhi]; rfl, by rw [hhj]; rfl, by rw [hhi]; rfl, by rw [hhj]; rfl,
    by rw [hhi]; rfl, by rw [hhj]; rfl, hcount⟩

/-- C1 witness: pairing the two fresh compatible handles of the demo scene. -/
theorem pair_establishes_connection_witness :
    ((connect demoFresh 0 1).handles 0).connected = true ∧
    ((connect demoFresh 0 1).handles 1).connected = true ∧
    ((connect demoFresh 0 1).handles 0).connector = some demoFresh.edges.length ∧
    ((connect demoFresh 0 1).handles 1).connector = some demoFresh.edges.length ∧
    ((connect demoFresh 0 1).handles 0).conjugate = some 1 ∧
    ((connect demoFresh 0 1).handles 1).conjugate = some 0 ∧
    edgesReferencing (connect demoFresh 0 1).edges 0 1 = 1 :=
  pair_establishes_connection demoFresh 0 1 (by decide) (by decide) (by decide)
    (by decide) (by decide)

/-- C2: freeing either handle of a mutually connected pair with
`mirror = true` returns both handles to the unconnected baseline —
`connected = false`, `connector = None`, `conjugate = None` on both — the
edge list keeps its length, and the shared connector edge is hidden, so no
edge is reachable from either handle. -/
theorem free_mirror_restores_baseline (s : GraphState) (i j e : Nat)
    (hconj_i : (s.handles i).conjugate = some j)
    (hconj_j : (s.handles j).conjugate = some i)
    (hconn_i : (s.handles i).connector = some e)
    (hconn_j : (s.handles j).connector = some e)
    (he : e < s.edges.length) :
    ((free s i true).handles i).connected = false ∧
    ((free s i true).handles i).connector = none ∧
    ((free s i true).handles i).conjugate = none ∧
    ((free s i true).handles j).connected = false ∧
    ((free s i true).handles j).connector = none ∧
    ((free s i true).handles j).conjugate = none ∧
    (free s i true).edges.length = s.edges.length ∧
    ((free s i true).edges[e]?.all fun r => r.hidden) = true := by
  have hcond : (true && (s.handles i).connector.isSome && (s.handles i).conjugate.isSome)
      = true := by rw [hconn_i, hconj_i]; rfl
  have hfree : free s i true = freeMirrorState s i := by rw [free_eq, if_pos hcond]
  have hJ : (s.handles i).conjugate.getD 0 = j := by rw [hconj_i]; rfl
  have hE : (s.handles i).connector.getD 0 = e := by rw [hconn_i]; rfl
  have hget : s.edges[e]? = some (s.edges[e]) := List.getElem?_eq_getElem he
  have hhide : (s.hideEdge e).edges = s.edges.set e { s.edges[e] with hidden := true } := by
    simp only [GraphState.hideEdge, hget]
  rw [hfree]
  simp only [freeMirrorState, hJ, hE, setHandle_handles, setHandle_edges, hideEdge_handles]
  refine ⟨?_, ?_, ?_, ?_, ?_, ?_, ?_, ?_⟩
  · simp
  · simp
  · simp
  · by_cases hji : j = i <;> simp [hji]
  · by_cases hji : j = i <;> simp [hji]
  · by_cases hji : j = i <;> simp [hji]
  · rw [hhide]; simp
  · rw [hhide]
    have : (s.edges.set e { s.edges[e] with hidden := true })[e]? =
        some { s.edges[e] with hidden := true } :=
      List.getElem?_set_eq_of_lt _ he
    rw [this]
    rfl

/-- C2 witness: freeing handle 0 of the paired demo scene. -/
theorem free_mirror_restores_baseline_witness :
    ((free demoPaired 0 true).handles 0).connected = false ∧
    ((free demoPaired 0 true).handles 0).connector = none ∧
    ((free demoPaired 0 true).handles 0).conjugate = none ∧
    ((free demoPaired 0 true).handles 1).connected = false ∧
    ((free demoPaired 0 true).handles 1).connector = none ∧
    ((free demoPaired 0 true).handles 1).conjugate = none ∧
    (free demoPaired 0 true).edges.length = demoPaired.edges.length ∧
    ((free demoPaired 0 true).edges[0]?.all fun r => r.hidden) = true :=
  free_mirror_restores_baseline demoPaired 0 1 0 (by decide) (by decide) (by decide)
    (by decide) (by decide)

/-- C3: `free` with `mirror = false` performs no nested `free` call and needs
a single stack frame; `free` with any mirror flag terminates within recursion
depth two in every state; and on a mutually connected pair the mirrored free
performs exactly one nested call — on the conjugate, with `mirror = false`. -/
theorem free_mirror_guard (s : GraphState) (i j e : Nat)
    (hconj_i : (s.handles i).conjugate = some j)
    (hconj_j : (s.handles j).conjugate = some i)
    (hconn_i : (s.handles i).connector = some e)
    (hconn_j : (s.handles j).connector = some e) :
    (∀ (s0 : GraphState) (i0 : Nat),
      freeFuel 1 s0 i0 false = some (s0.setHandle i0 ((s0.handles i0).reset), [])) ∧
    (∀ (s0 : GraphState) (i0 : Nat) (m : Bool), (freeFuel 2 s0 i0 m).isSome = true) ∧
    freeFuel 2 s i true = some (freeMirrorState s i, [(j, false)]) := by
  refine ⟨fun s0 i0 => freeFuel_one_false s0 i0, ?_, ?_⟩
  · intro s0 i0 m
    rw [freeFuel_two]
    by_cases hc : (m && (s0.handles i0).connector.isSome && (s0.handles i0).conjugate.isSome)
        = true
    · rw [if_pos hc]; rfl
    · rw [if_neg hc]; rfl
  · have hcond : (true && (s.handles i).connector.isSome && (s.handles i).conjugate.isSome)
        = true := by rw [hconn_i, hconj_i]; rfl
    have hJ : (s.handles i).conjugate.getD 0 = j := by rw [hconj_i]; rfl
    rw [freeFuel_two, if_pos hcond, hJ]

/-- C3 witness: the mirrored free of handle 0 in the paired demo scene makes
exactly the one nested call `free(1, mirror := false)`. -/
theorem free_mirror_guard_witness :
    freeFuel 2 demoPaired 0 true = some (freeMirrorState demoPaired 0, [(1, false)]) :=
  (free_mirror_guard demoPaired 0 1 0 (by decide) (by decide) (by decide) (by decide)).2.2

/-- C4: after any sequence of handle constructions, pairings and frees
starting from the empty scene, every handle's `connected` flag agrees with
its references: either `connected` with `connector` and `conjugate` both set,
or unconnected with both absent. -/
theorem handle_state_consistent (ops : List GraphOp) (k : Nat) :
    handleConsistent ((initState.execList ops).handles k) := by
  suffices h : ∀ s : GraphState, (∀ m, handleConsistent (s.handles m)) →
      ∀ m, handleConsistent ((s.execList ops).handles m) by
    exact h initState (fun m => Or.inr ⟨rfl, rfl, rfl⟩) k
  induction ops with
  | nil => intro s hs m; exact hs m
  | cons op ops ih =>
    intro s hs m
    have hstep : ∀ m', handleConsistent ((s.exec op).handles m') := by
      intro m'
      cases op with
      | addHandle i role owner =>
        simp only [GraphState.exec, setHandle_handles]
        split
        · exact Or.inr ⟨rfl, rfl, rfl⟩
        · exact hs m'
      | connect i j =>
        simp only [GraphState.exec, Climact.connect, setHandle_handles, setHandle_edges]
        split
        · exact handleConsistent_pair _ _ _
        · split
          · exact handleConsistent_pair _ _ _
          · exact hs m'
      | free i mirror =>
        rcases free_handles_cases s i mirror m' with hcase | ⟨h0, hcase⟩
        · rw [GraphState.exec, hcase]; exact hs m'
        · rw [GraphState.exec, hcase]; exact handleConsistent_reset h0
    exact ih (s.exec op) hstep m

/-- C9: starting from the uninitialized process state, any nonempty sequence
of `EventBus()` constructions and `EventBus.instance()` calls leaves exactly
one bus object (id 0, allocated once, initialized exactly once) and every
call returns that same object. -/
theorem bus_singleton (op : BusOp) (ops : List BusOp) :
    (busRun initialEnv (op :: ops)).1 = settledEnv ∧
    (busRun initialEnv (op :: ops)).2 = List.replicate (ops.length + 1) 0 := by
  have h1 : busRun initialEnv (op :: ops) =
      ops.foldl (fun acc op =>
        let p := busExec acc.1 op
        (p.1, acc.2 ++ [p.2])) (settledEnv, [0]) := by
    simp only [busRun, List.foldl_cons, busExec_first, List.nil_append]
  rw [h1, busRun_settled]
  exact ⟨rfl, by simp [List.replicate_succ]⟩

end Climact
